import Mathlib

/-!
Shallow embedding of the `LazyThingPreview` request-batching / caching
component from `openlibrary/plugins/openlibrary/js/lazy-thing-preview.js`.

The component keeps a queue of pending requests (`this.queue`), a cache
(`this.cache`), and a debounced `render` (the flush).  `push` either resolves
a cached key immediately or appends to the queue; `render` reads the queue's
keys, awaits `getThings` (up to three sequential batched fetches, one per
key domain), merges the returned docs into the cache (synthesising an extra
cache entry for a work's embedded first edition), then dispatches the render
callback of every entry of the *current* queue and clears the queue.

Modelling choices, each matching the source:
  * Callbacks are opaque: a pending request stores a callback identifier
    (`render_fn`), and an invocation is recorded as an `Event` carrying the
    identifier and the argument (`none` models JavaScript `undefined`).
  * The network is an oracle `NetOracle` giving each batched fetch's outcome;
    `Except.error` models a rejected fetch / JSON parse failure.
  * `render` suspends only between reading `this.queue.map(({key}) => key)`
    and resuming after `await this.getThings(keys)`; everything after the
    await is synchronous.  A flush is therefore two atomic steps,
    `flushStart` (key snapshot) and `flushFinish` (fetch outcome, cache
    merge, dispatch, clear); `push` steps may interleave between them.
  * A rejected `getThings` makes `render` throw before the cache merge:
    `flushFinish` then changes no state except recording the issued fetches
    and counting the unhandled rejection in `failures`.
-/

namespace LTP

/-- An embedded edition doc inside a work doc's `editions.docs` array. -/
structure EdStub where
  key : String
  type : String
  title : String
  subtitle : Option String
deriving DecidableEq, Repr

/-- A search-result doc / cached entity. `subtitle = none` models a missing
(falsy) subtitle and `full_title = none` a field not yet assigned. -/
structure Entity where
  key : String
  type : String
  title : String
  subtitle : Option String
  author_name : List String
  edition_count : Nat
  editions : List EdStub
  full_title : Option String
deriving DecidableEq, Repr

/-- One entry of `this.queue`: the requested key and the callback id. -/
structure PendingReq where
  key : String
  render_fn : Nat
deriving DecidableEq, Repr

/-- A recorded callback invocation: `arg = none` models `undefined`. -/
structure Event where
  cb : Nat
  arg : Option Entity
deriving DecidableEq, Repr

/-- The three key domains routed to distinct batched lookups. -/
inductive Domain where
  | work
  | edition
  | author
deriving DecidableEq, Repr

/-- One issued batched lookup: the domain and the identifier list sent. -/
structure FetchCall where
  domain : Domain
  keys : List String
deriving DecidableEq, Repr

/-- Outcome of each batched fetch, per domain and identifier list. -/
def NetOracle : Type := Domain → List String → Except Unit (List Entity)

/-- `this.cache[key]` lookup; the newest write is first in the list. -/
def cacheGet (c : List (String × Entity)) (k : String) : Option Entity :=
  (c.find? (fun p => p.1 == k)).map (fun p => p.2)

/-- `this.cache[key] = v` (later writes shadow earlier ones). -/
def cacheSet (c : List (String × Entity)) (k : String) (v : Entity) :
    List (String × Entity) :=
  (k, v) :: c

/-- JavaScript `s.startsWith(p)`. -/
def jsStartsWith (s p : String) : Bool :=
  p.data.isPrefixOf s.data

/-- JavaScript `s.split(sep)` on the character list. -/
def splitChars (sep : Char) : List Char → List (List Char)
  | [] => [[]]
  | c :: cs =>
    let r := splitChars sep cs
    if c = sep then [] :: r
    else
      match r with
      | [] => [[c]]
      | h :: t => (c :: h) :: t

/-- `key.split('/').pop()`: the last `/`-separated segment. -/
def lastSeg (k : String) : String :=
  String.mk (((splitChars '/' k.data).getLast?).getD [])

/-- `book.subtitle ? book.title + ": " + book.subtitle : book.title`
(an empty subtitle is falsy in JavaScript). -/
def fullTitle (title : String) (subtitle : Option String) : String :=
  match subtitle with
  | some st => if st = "" then title else title ++ ": " ++ st
  | none => title

/-- The work doc after `book.full_title = ...` is assigned. -/
def applyFullTitle (w : Entity) : Entity :=
  { w with full_title := some (fullTitle w.title w.subtitle) }

/-- The cache entry synthesised for a work's first embedded edition:
own title/subtitle, combined full title, author names and edition count
inherited from the work. -/
def synthEdition (book : Entity) (ed : EdStub) : Entity :=
  { key := ed.key
    type := ed.type
    title := ed.title
    subtitle := ed.subtitle
    author_name := book.author_name
    edition_count := book.edition_count
    editions := []
    full_title := some (fullTitle ed.title ed.subtitle) }

/-- The author search returns keys without the `/authors/` part, which the
code restores (`doc.key = '/authors/' + doc.key`); other domains' docs are
concatenated unchanged. -/
def postProcess (d : Domain) (docs : List Entity) : List Entity :=
  match d with
  | Domain.author => docs.map (fun doc => { doc with key := "/authors/" ++ doc.key })
  | _ => docs

/-- One sequential stage of `getThings`: skipped when its key list is empty
or when an earlier stage already failed (the `await` rejected, so later
fetches are never issued); otherwise the fetch is recorded as issued and
either the whole computation fails or the (post-processed) docs are
appended. -/
def fetchStage (net : NetOracle) (d : Domain) (ks : List String)
    (acc : List FetchCall × Except Unit (List Entity)) :
    List FetchCall × Except Unit (List Entity) :=
  match acc with
  | (calls, Except.error e) => (calls, Except.error e)
  | (calls, Except.ok docs) =>
    if ks.isEmpty then (calls, Except.ok docs)
    else
      match net d ks with
      | Except.error e => (calls ++ [⟨d, ks⟩], Except.error e)
      | Except.ok resp => (calls ++ [⟨d, ks⟩], Except.ok (docs ++ postProcess d resp))

/-- `getThings(keys)`: partition the key list by domain (preserving order
and multiplicity), then run the work, edition and author fetches in that
order, sequentially; edition identifiers are sent as their last path
segment.  Returns the issued fetches and the rejection-or-docs outcome. -/
def getThings (net : NetOracle) (keys : List String) :
    List FetchCall × Except Unit (List Entity) :=
  let workKeys := keys.filter (fun k => jsStartsWith k "/works/")
  let editionKeys := keys.filter (fun k => jsStartsWith k "/books/")
  let authorKeys := keys.filter (fun k => jsStartsWith k "/authors/")
  fetchStage net Domain.author authorKeys
    (fetchStage net Domain.edition (editionKeys.map lastSeg)
      (fetchStage net Domain.work workKeys ([], Except.ok [])))

/-- The cache merge for one returned doc: work docs get `full_title`
assigned and, when an embedded edition is present, an extra synthesised
entry under the edition's own key; other docs are cached as-is. -/
def processThing (cache : List (String × Entity)) (thing : Entity) :
    List (String × Entity) :=
  if thing.type = "work" then
    let book := applyFullTitle thing
    let cache1 := cacheSet cache book.key book
    match thing.editions with
    | [] => cache1
    | ed :: _ => cacheSet cache1 ed.key (synthEdition book ed)
  else
    cacheSet cache thing.key thing

/-- The coalescer's own mutable fields: `this.queue` and `this.cache`. -/
structure State where
  queue : List PendingReq
  cache : List (String × Entity)
deriving DecidableEq, Repr

/-- `push({key, render_fn_name})`: a cached key resolves immediately with
the cached entity; otherwise the request is appended to the queue (and the
debounced flush is re-armed, modelled at the trace level). -/
def push (s : State) (key : String) (cb : Nat) : State × List Event :=
  match cacheGet s.cache key with
  | some book => (s, [⟨cb, some book⟩])
  | none => ({ s with queue := s.queue ++ [⟨key, cb⟩] }, [])

/-- Whole-system state: component state, the in-flight flush's key snapshot
(if a flush is between its start and its completion), and the observable
histories — callback invocations, issued fetches, and the count of flushes
that ended in an unhandled rejection. -/
structure Sys where
  st : State
  inflight : Option (List String)
  events : List Event
  calls : List FetchCall
  failures : Nat
deriving DecidableEq, Repr

/-- The empty initial system (fresh `LazyThingPreview` instance). -/
def initSys : Sys :=
  { st := { queue := [], cache := [] }
    inflight := none
    events := []
    calls := []
    failures := 0 }

/-- Trace actions: a `request` call, a flush firing (start of `render`),
and a flush completing (resumption after `await getThings`). -/
inductive Action where
  | push (key : String) (cb : Nat)
  | flushStart
  | flushFinish
deriving DecidableEq, Repr

/-- One scheduler step.  `flushStart` records the key snapshot
`this.queue.map(({key}) => key)`; `flushFinish` computes `getThings` on the
snapshot: on rejection `render` throws, leaving queue and cache untouched;
on success the docs are merged into the cache, every entry of the *current*
queue is dispatched with the cache value under its key (possibly `none`),
and the queue is cleared. -/
def step (net : NetOracle) (s : Sys) (a : Action) : Sys :=
  match a with
  | Action.push k cb =>
    let r := push s.st k cb
    { s with st := r.1, events := s.events ++ r.2 }
  | Action.flushStart =>
    match s.inflight with
    | some _ => s
    | none => { s with inflight := some (s.st.queue.map (fun r => r.key)) }
  | Action.flushFinish =>
    match s.inflight with
    | none => s
    | some keys =>
      let r := getThings net keys
      match r.2 with
      | Except.error _ =>
        { s with inflight := none
                 calls := s.calls ++ r.1
                 failures := s.failures + 1 }
      | Except.ok things =>
        let cache2 := things.foldl processThing s.st.cache
        { st := { queue := [], cache := cache2 }
          inflight := none
          events := s.events ++
            s.st.queue.map (fun r => Event.mk r.render_fn (cacheGet cache2 r.key))
          calls := s.calls ++ r.1
          failures := s.failures }

/-- Run a whole trace of actions. -/
def run (net : NetOracle) (s : Sys) (acts : List Action) : Sys :=
  acts.foldl (step net) s

/-- Number of recorded invocations of callback id `c`. -/
def evCount (c : Nat) (l : List Event) : Nat :=
  l.countP (fun e => e.cb == c)

/-- Number of pending queue entries carrying callback id `c`. -/
def qCount (c : Nat) (l : List PendingReq) : Nat :=
  l.countP (fun r => r.render_fn == c)

/-- Number of `request` calls in a trace carrying callback id `c`. -/
def pushCount (c : Nat) (acts : List Action) : Nat :=
  acts.countP (fun a =>
    match a with
    | Action.push _ cb => cb == c
    | _ => false)

/- Concrete sample data and network oracles used by the counterexamples and
the witnesses. -/

/-- A sample work doc with no embedded edition. -/
def w0 : Entity :=
  { key := "/works/OL1W", type := "work", title := "T", subtitle := none,
    author_name := ["A"], edition_count := 3, editions := [], full_title := none }

/-- A sample embedded edition doc with key `/books/OL2M`. -/
def ed1 : EdStub := ⟨"/books/OL2M", "edition", "ET", some "ES"⟩

/-- A sample work doc embedding the first edition `ed1`. -/
def w1 : Entity :=
  { key := "/works/OL1W", type := "work", title := "T", subtitle := some "S",
    author_name := ["A"], edition_count := 3,
    editions := [ed1], full_title := none }

/-- A sample author doc as returned by the author search: bare key. -/
def a0 : Entity :=
  { key := "OL23A", type := "author", title := "N", subtitle := none,
    author_name := [], edition_count := 0, editions := [], full_title := none }

/-- Every fetch fails. -/
def netFailAll : NetOracle := fun _ _ => Except.error ()

/-- Every fetch succeeds with no matching docs. -/
def netOkEmpty : NetOracle := fun _ _ => Except.ok []

/-- Work fetches return `w0`; other fetches succeed empty. -/
def netOkW0 : NetOracle := fun d _ =>
  match d with
  | Domain.work => Except.ok [w0]
  | _ => Except.ok []

/-- Work fetches return `w1`; other fetches succeed empty. -/
def netOkW1 : NetOracle := fun d _ =>
  match d with
  | Domain.work => Except.ok [w1]
  | _ => Except.ok []

/-- Work fetches return `w0`, edition fetches succeed empty, author fetches
fail. -/
def netAuthFail : NetOracle := fun d _ =>
  match d with
  | Domain.work => Except.ok [w0]
  | Domain.edition => Except.ok []
  | Domain.author => Except.error ()

/-- Author fetches return `a0` (bare key); other fetches succeed empty. -/
def netAuth : NetOracle := fun d _ =>
  match d with
  | Domain.author => Except.ok [a0]
  | _ => Except.ok []

/-- System state of a failing flush caught mid-flight: one queued work key,
snapshot taken. -/
def sFail1 : Sys :=
  run netFailAll initSys [Action.push "/works/OL1W" 1, Action.flushStart]

/-- System state of a mixed work/author window caught mid-flight under
`netAuthFail`. -/
def sMixed : Sys :=
  run netAuthFail initSys
    [Action.push "/works/OL1W" 1, Action.push "/authors/OL2A" 2, Action.flushStart]

/-- System state of a one-work-key window caught mid-flight under `netOkW0`. -/
def sWork1 : Sys :=
  run netOkW0 initSys [Action.push "/works/OL1W" 1, Action.flushStart]

/-- A system whose cache already holds `w0` and whose queue is empty. -/
def sCached : Sys :=
  { st := { queue := [], cache := [("/works/OL1W", w0)] }
    inflight := none
    events := []
    calls := []
    failures := 0 }

/-! ### Structural lemmas -/

/-- A `getThings` stage leaves the issued-call list unchanged or appends
exactly its own call. -/
theorem fetchStage_calls (net : NetOracle) (d : Domain) (ks : List String)
    (acc : List FetchCall × Except Unit (List Entity)) :
    (fetchStage net d ks acc).1 = acc.1 ∨
    (fetchStage net d ks acc).1 = acc.1 ++ [⟨d, ks⟩] := by
  rcases acc with ⟨calls, res⟩
  cases res with
  | error e => exact Or.inl rfl
  | ok docs =>
    simp only [fetchStage]
    cases h : ks.isEmpty
    · simp only [h, Bool.false_eq_true, if_false]
      cases net d ks with
      | error e => exact Or.inr rfl
      | ok resp => exact Or.inr rfl
    · simp only [h, if_true]
      exact Or.inl trivial

/-- Any call issued by a `getThings` stage is an inherited call or the
stage's own. -/
theorem mem_fetchStage_calls {net : NetOracle} {d : Domain} {ks : List String}
    {acc : List FetchCall × Except Unit (List Entity)} {c : FetchCall}
    (h : c ∈ (fetchStage net d ks acc).1) :
    c ∈ acc.1 ∨ c = FetchCall.mk d ks := by
  rcases fetchStage_calls net d ks acc with he | he <;> rw [he] at h
  · exact Or.inl h
  · rcases List.mem_append.mp h with h1 | h1
    · exact Or.inl h1
    · exact Or.inr (List.mem_singleton.mp h1)

/-- The `flushFinish` step always appends exactly the calls issued by
`getThings` on the snapshot, whether or not the lookups succeed. -/
theorem flushFinish_calls (net : NetOracle) (s : Sys) (keys : List String)
    (h : s.inflight = some keys) :
    (step net s Action.flushFinish).calls = s.calls ++ (getThings net keys).1 := by
  simp only [step, h]
  cases hres : (getThings net keys).2 <;> simp [hres]

/-- The three sequential stages issue at most three calls in total and at
most one call per domain. -/
theorem threeStage_calls_bound (net : NetOracle) (ks1 ks2 ks3 : List String) :
    (fetchStage net Domain.author ks3
      (fetchStage net Domain.edition ks2
        (fetchStage net Domain.work ks1 ([], Except.ok [])))).1.length ≤ 3 ∧
    ∀ d : Domain,
      ((fetchStage net Domain.author ks3
        (fetchStage net Domain.edition ks2
          (fetchStage net Domain.work ks1 ([], Except.ok [])))).1.filter
          (fun c => c.domain == d)).length ≤ 1 := by
  rcases fetchStage_calls net Domain.author ks3
      (fetchStage net Domain.edition ks2
        (fetchStage net Domain.work ks1 ([], Except.ok []))) with h3 | h3 <;>
    rw [h3] <;>
    rcases fetchStage_calls net Domain.edition ks2
        (fetchStage net Domain.work ks1 ([], Except.ok [])) with h2 | h2 <;>
      rw [h2] <;>
      rcases fetchStage_calls net Domain.work ks1 ([], Except.ok []) with h1 | h1 <;>
        rw [h1] <;>
        refine ⟨by simp, fun d => ?_⟩ <;>
        cases d <;>
        simp [List.filter_append]

/-- Claim C5: within one flush, all keys of a domain are combined into a
single batched lookup, so at most one lookup call is issued per domain and
at most three per flush, however many keys or callers are queued.  The
first conjunct ties the bound to the flush step: a completing flush appends
exactly the calls of `getThings` on its snapshot. -/
theorem c5_coalescing_bound (net : NetOracle) (s : Sys) (keys : List String)
    (h : s.inflight = some keys) :
    (step net s Action.flushFinish).calls = s.calls ++ (getThings net keys).1 ∧
    (getThings net keys).1.length ≤ 3 ∧
    ((getThings net keys).1.filter (fun c => c.domain == Domain.work)).length ≤ 1 ∧
    ((getThings net keys).1.filter (fun c => c.domain == Domain.edition)).length ≤ 1 ∧
    ((getThings net keys).1.filter (fun c => c.domain == Domain.author)).length ≤ 1 :=
  ⟨flushFinish_calls net s keys h,
   (threeStage_calls_bound net _ _ _).1,
   (threeStage_calls_bound net _ _ _).2 Domain.work,
   (threeStage_calls_bound net _ _ _).2 Domain.edition,
   (threeStage_calls_bound net _ _ _).2 Domain.author⟩

/-- Witness for C5 at a concrete flush of two distinct work keys: a single
work-domain lookup is issued. -/
theorem c5_coalescing_bound_witness :
    (run netOkW0 initSys [Action.push "/works/OL1W" 1, Action.push "/works/OL2W" 2,
        Action.flushStart]).inflight = some ["/works/OL1W", "/works/OL2W"] ∧
    ((step netOkW0 (run netOkW0 initSys [Action.push "/works/OL1W" 1,
        Action.push "/works/OL2W" 2, Action.flushStart]) Action.flushFinish).calls =
      (run netOkW0 initSys [Action.push "/works/OL1W" 1, Action.push "/works/OL2W" 2,
        Action.flushStart]).calls ++
        (getThings netOkW0 ["/works/OL1W", "/works/OL2W"]).1 ∧
      (getThings netOkW0 ["/works/OL1W", "/works/OL2W"]).1.length ≤ 3 ∧
      ((getThings netOkW0 ["/works/OL1W", "/works/OL2W"]).1.filter
        (fun c => c.domain == Domain.work)).length ≤ 1 ∧
      ((getThings netOkW0 ["/works/OL1W", "/works/OL2W"]).1.filter
        (fun c => c.domain == Domain.edition)).length ≤ 1 ∧
      ((getThings netOkW0 ["/works/OL1W", "/works/OL2W"]).1.filter
        (fun c => c.domain == Domain.author)).length ≤ 1) :=
  ⟨by decide,
   c5_coalescing_bound netOkW0
     (run netOkW0 initSys [Action.push "/works/OL1W" 1, Action.push "/works/OL2W" 2,
       Action.flushStart])
     ["/works/OL1W", "/works/OL2W"] (by decide)⟩

/-- Claim C6 counterexample: when the same key is enqueued by two `request`
calls in one window, the work-domain batched lookup receives the key twice —
the identifier array sent is not duplicate-free, contrary to the claim. -/
theorem c6_distinct_cex :
    ((run netOkEmpty initSys [Action.push "/works/OL1W" 1, Action.push "/works/OL1W" 2,
        Action.flushStart, Action.flushFinish]).calls.map (fun c => c.keys)) =
      [["/works/OL1W", "/works/OL1W"]] ∧
    ¬ (["/works/OL1W", "/works/OL1W"] : List String).Nodup :=
  ⟨by decide, by decide⟩

/-- Claim C6 amended: the flush partitions the snapshot's keys by domain
(work / edition / author, edition keys reduced to their last path segment),
preserving order and multiplicity — it does not deduplicate, so a key
enqueued by several `request` calls appears several times in its domain's
batched lookup. -/
theorem c6_partition_multiplicity (net : NetOracle) (keys : List String)
    (c : FetchCall) (hc : c ∈ (getThings net keys).1) :
    c.keys = match c.domain with
      | Domain.work => keys.filter (fun k => jsStartsWith k "/works/")
      | Domain.edition => (keys.filter (fun k => jsStartsWith k "/books/")).map lastSeg
      | Domain.author => keys.filter (fun k => jsStartsWith k "/authors/") := by
  have hc' : c ∈ (fetchStage net Domain.author
      (keys.filter (fun k => jsStartsWith k "/authors/"))
      (fetchStage net Domain.edition
        ((keys.filter (fun k => jsStartsWith k "/books/")).map lastSeg)
        (fetchStage net Domain.work (keys.filter (fun k => jsStartsWith k "/works/"))
          ([], Except.ok [])))).1 := hc
  rcases mem_fetchStage_calls hc' with h | h
  · rcases mem_fetchStage_calls h with h2 | h2
    · rcases mem_fetchStage_calls h2 with h3 | h3
      · simp at h3
      · subst h3; rfl
    · subst h2; rfl
  · subst h; rfl

/-- Witness for C6 amended: the duplicated-key window's single work call
carries exactly the work-domain filter of the snapshot, duplicate kept. -/
theorem c6_partition_multiplicity_witness :
    (FetchCall.mk Domain.work ["/works/OL1W", "/works/OL1W"] ∈
      (getThings netOkEmpty ["/works/OL1W", "/works/OL1W"]).1) ∧
    (FetchCall.mk Domain.work ["/works/OL1W", "/works/OL1W"]).keys =
      match (FetchCall.mk Domain.work ["/works/OL1W", "/works/OL1W"]).domain with
      | Domain.work =>
        (["/works/OL1W", "/works/OL1W"] : List String).filter
          (fun k => jsStartsWith k "/works/")
      | Domain.edition =>
        ((["/works/OL1W", "/works/OL1W"] : List String).filter
          (fun k => jsStartsWith k "/books/")).map lastSeg
      | Domain.author =>
        (["/works/OL1W", "/works/OL1W"] : List String).filter
          (fun k => jsStartsWith k "/authors/") :=
  ⟨by decide,
   c6_partition_multiplicity netOkEmpty ["/works/OL1W", "/works/OL1W"]
     (FetchCall.mk Domain.work ["/works/OL1W", "/works/OL1W"]) (by decide)⟩

/-- Claim C7: a `request` for a key already in the cache invokes the
callback immediately with the cached entity and changes nothing else: no
queue entry is added, no flush state is touched, and the list of issued
batched lookup calls stays exactly the same. -/
theorem c7_cache_hit (net : NetOracle) (s : Sys) (k : String) (cb : Nat)
    (book : Entity) (h : cacheGet s.st.cache k = some book) :
    step net s (Action.push k cb) =
      { s with events := s.events ++ [Event.mk cb (some book)] } := by
  simp [step, push, h]

/-- Witness for C7: a cached work key resolves immediately from `sCached`. -/
theorem c7_cache_hit_witness :
    cacheGet sCached.st.cache "/works/OL1W" = some w0 ∧
    step netOkEmpty sCached (Action.push "/works/OL1W" 7) =
      { sCached with events := sCached.events ++ [Event.mk 7 (some w0)] } :=
  ⟨by decide, c7_cache_hit netOkEmpty sCached "/works/OL1W" 7 w0 (by decide)⟩

/-- Claim C9: a `request` step always completes normally — it never
produces a rejected flush (`failures` unchanged), never issues a lookup,
never touches the in-flight snapshot, and its only outcomes are the two
normal ones: on a cache hit the callback is invoked immediately with the
cached entity; otherwise the request is appended to the queue with no
invocation.  `undefined` (`none`) reaches a callback only through the flush
dispatch, never synchronously from `request`. -/
theorem c9_push_no_sync_error (net : NetOracle) (s : Sys) (k : String) (cb : Nat) :
    (step net s (Action.push k cb)).failures = s.failures ∧
    (step net s (Action.push k cb)).calls = s.calls ∧
    (step net s (Action.push k cb)).inflight = s.inflight ∧
    ((step net s (Action.push k cb)).events, (step net s (Action.push k cb)).st) =
      (match cacheGet s.st.cache k with
       | some book => (s.events ++ [Event.mk cb (some book)], s.st)
       | none =>
         (s.events, { s.st with queue := s.st.queue ++ [PendingReq.mk k cb] })) := by
  cases h : cacheGet s.st.cache k <;> simp [step, push, h]

/-- Witness for C9 at a fresh instance and an uncached key. -/
theorem c9_push_no_sync_error_witness :
    (step netOkEmpty initSys (Action.push "/works/OL1W" 5)).failures = initSys.failures ∧
    (step netOkEmpty initSys (Action.push "/works/OL1W" 5)).calls = initSys.calls ∧
    (step netOkEmpty initSys (Action.push "/works/OL1W" 5)).inflight = initSys.inflight ∧
    ((step netOkEmpty initSys (Action.push "/works/OL1W" 5)).events,
     (step netOkEmpty initSys (Action.push "/works/OL1W" 5)).st) =
      (match cacheGet initSys.st.cache "/works/OL1W" with
       | some book => (initSys.events ++ [Event.mk 5 (some book)], initSys.st)
       | none =>
         (initSys.events,
          { initSys.st with
              queue := initSys.st.queue ++ [PendingReq.mk "/works/OL1W" 5] })) :=
  c9_push_no_sync_error netOkEmpty initSys "/works/OL1W" 5

/-- Claim C1 counterexample: a flush whose work lookup fails completes (the
`flushFinish` step runs, recording the issued call and the rejection) with
the pending request still in the queue — the queue is not cleared on
failure, so the request is held into the next flush window. -/
theorem c1_drain_cex :
    (run netFailAll initSys
      [Action.push "/works/OL1W" 1, Action.flushStart, Action.flushFinish]).st.queue =
      [PendingReq.mk "/works/OL1W" 1] ∧
    (run netFailAll initSys
      [Action.push "/works/OL1W" 1, Action.flushStart, Action.flushFinish]).st.queue ≠ [] ∧
    (run netFailAll initSys
      [Action.push "/works/OL1W" 1, Action.flushStart, Action.flushFinish]).failures = 1 :=
  ⟨by decide, by decide, by decide⟩

/-- Claim C1 amended: a flush whose batched lookups all succeed drains and
clears the whole queue; but when any lookup fails the flush aborts before
its dispatch phase and the queue is left exactly as it was, so pending
requests are then held across flush windows. -/
theorem c1_drain_on_success (net : NetOracle) (s : Sys) (keys : List String)
    (h : s.inflight = some keys) :
    (step net s Action.flushFinish).st.queue =
      match (getThings net keys).2 with
      | Except.ok _ => []
      | Except.error _ => s.st.queue := by
  simp only [step, h]
  cases hres : (getThings net keys).2 <;> simp [hres]

/-- Witness for C1 amended at the concrete failing flush `sFail1`. -/
theorem c1_drain_on_success_witness :
    sFail1.inflight = some ["/works/OL1W"] ∧
    (step netFailAll sFail1 Action.flushFinish).st.queue =
      match (getThings netFailAll ["/works/OL1W"]).2 with
      | Except.ok _ => []
      | Except.error _ => sFail1.st.queue :=
  ⟨by decide, c1_drain_on_success netFailAll sFail1 ["/works/OL1W"] (by decide)⟩

/-- Claim C2 counterexample: a window holding a work key and an author key,
where the author lookup fails and the work lookup succeeds.  Contrary to
the claim, the work result does not populate the cache (it is discarded
when the single `getThings` promise rejects) and the author request's
callback is not invoked with `undefined` — no callback is invoked at all. -/
theorem c2_partial_failure_cex :
    cacheGet (run netAuthFail initSys
      [Action.push "/works/OL1W" 1, Action.push "/authors/OL2A" 2,
       Action.flushStart, Action.flushFinish]).st.cache "/works/OL1W" = none ∧
    (run netAuthFail initSys
      [Action.push "/works/OL1W" 1, Action.push "/authors/OL2A" 2,
       Action.flushStart, Action.flushFinish]).events = [] ∧
    (run netAuthFail initSys
      [Action.push "/works/OL1W" 1, Action.push "/authors/OL2A" 2,
       Action.flushStart, Action.flushFinish]).calls =
      [FetchCall.mk Domain.work ["/works/OL1W"],
       FetchCall.mk Domain.author ["/authors/OL2A"]] :=
  ⟨by decide, by decide, by decide⟩

/-- Claim C2 amended: the three domain lookups run sequentially inside one
async computation, so domain failures are not independent: if any domain's
lookup fails the entire flush fails — no domain's results are merged into
the cache (even ones whose lookup already completed), no callback is
invoked for this flush, the queue is retained unchanged, and the rejection
is counted; only the fetches issued up to and including the failing one are
on the wire. -/
theorem c2_whole_flush_fails (net : NetOracle) (s : Sys) (keys : List String)
    (e : Unit) (h : s.inflight = some keys)
    (herr : (getThings net keys).2 = Except.error e) :
    (step net s Action.flushFinish).st = s.st ∧
    (step net s Action.flushFinish).events = s.events ∧
    (step net s Action.flushFinish).failures = s.failures + 1 ∧
    (step net s Action.flushFinish).calls = s.calls ++ (getThings net keys).1 := by
  refine ⟨?_, ?_, ?_, flushFinish_calls net s keys h⟩ <;>
    simp [step, h, herr]

/-- Witness for C2 amended at the concrete mixed window `sMixed`. -/
theorem c2_whole_flush_fails_witness :
    sMixed.inflight = some ["/works/OL1W", "/authors/OL2A"] ∧
    (getThings netAuthFail ["/works/OL1W", "/authors/OL2A"]).2 = Except.error () ∧
    ((step netAuthFail sMixed Action.flushFinish).st = sMixed.st ∧
     (step netAuthFail sMixed Action.flushFinish).events = sMixed.events ∧
     (step netAuthFail sMixed Action.flushFinish).failures = sMixed.failures + 1 ∧
     (step netAuthFail sMixed Action.flushFinish).calls =
       sMixed.calls ++ (getThings netAuthFail ["/works/OL1W", "/authors/OL2A"]).1) :=
  ⟨by decide, by rfl,
   c2_whole_flush_fails netAuthFail sMixed ["/works/OL1W", "/authors/OL2A"] ()
     (by decide) (by rfl)⟩

/-- Claim C3 counterexample: a request whose flush's lookup fails has its
callback invoked zero times — and with no further `request` call nothing
ever flushes again, so, contrary to the claim, the callback is not always
eventually invoked (and not invoked with `undefined` on lookup failure):
here two further flush cycles still invoke nothing. -/
theorem c3_exactly_once_cex :
    (run netFailAll initSys
      [Action.push "/works/OL1W" 1, Action.flushStart, Action.flushFinish,
       Action.flushStart, Action.flushFinish]).events = [] ∧
    (run netFailAll initSys
      [Action.push "/works/OL1W" 1, Action.flushStart, Action.flushFinish,
       Action.flushStart, Action.flushFinish]).st.queue ≠ [] :=
  ⟨by decide, by decide⟩

/-- One step's effect on the per-callback accounting: invocations plus
pending queue entries for a callback id grow exactly by that step's
`request` calls carrying the id. -/
theorem step_count (net : NetOracle) (s : Sys) (a : Action) (c : Nat) :
    evCount c (step net s a).events + qCount c (step net s a).st.queue =
      evCount c s.events + qCount c s.st.queue + pushCount c [a] := by
  cases a with
  | push k cb =>
    cases h : cacheGet s.st.cache k <;>
      simp [step, push, h, evCount, qCount, pushCount, List.countP_append,
        List.countP_cons] <;>
      split <;> omega
  | flushStart =>
    cases h : s.inflight <;> simp [step, h, pushCount, List.countP_cons]
  | flushFinish =>
    cases h : s.inflight with
    | none => simp [step, h, pushCount, List.countP_cons]
    | some keys =>
      simp only [step, h]
      cases hres : (getThings net keys).2 with
      | error e => simp [hres, pushCount, List.countP_cons]
      | ok things =>
        simp only [hres, pushCount, evCount, qCount, List.countP_append,
          List.countP_map, List.countP_cons, List.countP_nil]
        rfl

/-- Trace-level accounting from any start state. -/
theorem run_count (net : NetOracle) (c : Nat) (acts : List Action) :
    forall (s : Sys),
      evCount c (run net s acts).events + qCount c (run net s acts).st.queue =
        evCount c s.events + qCount c s.st.queue + pushCount c acts := by
  induction acts with
  | nil => intro s; simp [run, pushCount]
  | cons a as ih =>
    intro s
    have h1 : run net s (a :: as) = run net (step net s a) as := rfl
    rw [h1, ih (step net s a)]
    have h2 := step_count net s a c
    have h3 : pushCount c (a :: as) = pushCount c [a] + pushCount c as := by
      simp [pushCount, List.countP_cons]
      omega
    omega

/-- Claim C3 amended: over every trace, for every callback id, recorded
invocations plus still-pending queue entries equal the number of `request`
calls with that id — so a callback is invoked at most once per `request`
call — but eventual invocation is not guaranteed: a flush whose lookups
fail invokes none of its queued callbacks and schedules no retry, so absent
a later flush a request's callback is never invoked (see the
counterexample). -/
theorem c3_at_most_once (net : NetOracle) (acts : List Action) (c : Nat) :
    evCount c (run net initSys acts).events + qCount c (run net initSys acts).st.queue =
      pushCount c acts ∧
    evCount c (run net initSys acts).events ≤ pushCount c acts := by
  have h := run_count net c acts initSys
  have h0 : evCount c initSys.events = 0 := rfl
  have h1 : qCount c initSys.st.queue = 0 := rfl
  rw [h0, h1] at h
  exact ⟨by omega, by omega⟩

/-- Witness for C3 amended on a concrete successful window. -/
theorem c3_at_most_once_witness :
    evCount 1 (run netOkW0 initSys [Action.push "/works/OL1W" 1, Action.flushStart,
        Action.flushFinish]).events +
      qCount 1 (run netOkW0 initSys [Action.push "/works/OL1W" 1, Action.flushStart,
        Action.flushFinish]).st.queue =
      pushCount 1 [Action.push "/works/OL1W" 1, Action.flushStart, Action.flushFinish] ∧
    evCount 1 (run netOkW0 initSys [Action.push "/works/OL1W" 1, Action.flushStart,
        Action.flushFinish]).events ≤
      pushCount 1 [Action.push "/works/OL1W" 1, Action.flushStart, Action.flushFinish] :=
  c3_at_most_once netOkW0 [Action.push "/works/OL1W" 1, Action.flushStart,
    Action.flushFinish] 1

/-- Claim C4 counterexample: a request arriving while the flush's lookups
are outstanding is, contrary to the claim, dispatched by the in-flight
flush's dispatch phase (here with `undefined`, since its key was not in the
snapshot) and removed with the in-flight queue instead of being kept in a
fresh queue for the next window. -/
theorem c4_snapshot_cex :
    (run netOkW0 initSys [Action.push "/works/OL1W" 1, Action.flushStart,
        Action.push "/works/OL9W" 2, Action.flushFinish]).events =
      [Event.mk 1 (some (applyFullTitle w0)), Event.mk 2 none] ∧
    (run netOkW0 initSys [Action.push "/works/OL1W" 1, Action.flushStart,
        Action.push "/works/OL9W" 2, Action.flushFinish]).st.queue = [] :=
  ⟨by decide, by decide⟩

/-- Claim C4 amended: only the key snapshot is isolated — a request
arriving during the outstanding lookups does not change which keys are
fetched (the issued calls are those of `getThings` on the snapshot), but
the request is appended to the same live queue, is dispatched by the
in-flight flush's dispatch phase with whatever the cache then holds
(possibly `undefined`), and is cleared together with the snapshot instead
of being deferred to the next window. -/
theorem c4_snapshot_keys_only (net : NetOracle) (s : Sys) (keys : List String)
    (k : String) (cb : Nat) (things : List Entity)
    (h : s.inflight = some keys)
    (hmiss : cacheGet s.st.cache k = none)
    (hok : (getThings net keys).2 = Except.ok things) :
    (step net s (Action.push k cb)).inflight = some keys ∧
    (step net (step net s (Action.push k cb)) Action.flushFinish).calls =
      s.calls ++ (getThings net keys).1 ∧
    (step net (step net s (Action.push k cb)) Action.flushFinish).events =
      s.events ++ (s.st.queue ++ [PendingReq.mk k cb]).map
        (fun r => Event.mk r.render_fn
          (cacheGet (things.foldl processThing s.st.cache) r.key)) ∧
    (step net (step net s (Action.push k cb)) Action.flushFinish).st.queue = [] := by
  have hstep : step net s (Action.push k cb) =
      { s with st := { s.st with queue := s.st.queue ++ [PendingReq.mk k cb] } } := by
    simp [step, push, hmiss]
  rw [hstep]
  refine ⟨by simp [h], ?_⟩
  simp only [step, h]
  rw [hok]
  simp

/-- Witness for C4 amended: the one-work-key flush `sWork1` with the
request `/works/OL9W` arriving mid-flight. -/
theorem c4_snapshot_keys_only_witness :
    sWork1.inflight = some ["/works/OL1W"] ∧
    cacheGet sWork1.st.cache "/works/OL9W" = none ∧
    ((step netOkW0 sWork1 (Action.push "/works/OL9W" 2)).inflight =
        some ["/works/OL1W"] ∧
      (step netOkW0 (step netOkW0 sWork1 (Action.push "/works/OL9W" 2))
          Action.flushFinish).calls =
        sWork1.calls ++ (getThings netOkW0 ["/works/OL1W"]).1 ∧
      (step netOkW0 (step netOkW0 sWork1 (Action.push "/works/OL9W" 2))
          Action.flushFinish).events =
        sWork1.events ++ (sWork1.st.queue ++ [PendingReq.mk "/works/OL9W" 2]).map
          (fun r => Event.mk r.render_fn
            (cacheGet (List.foldl processThing sWork1.st.cache [w0]) r.key)) ∧
      (step netOkW0 (step netOkW0 sWork1 (Action.push "/works/OL9W" 2))
          Action.flushFinish).st.queue = []) :=
  ⟨by decide, by decide,
   c4_snapshot_keys_only netOkW0 sWork1 ["/works/OL1W"] "/works/OL9W" 2 [w0]
     (by decide) (by decide) (by rfl)⟩

/-- Claim C8 counterexample: with `/works/OL1W` and its primary edition
`/books/OL2M` requested in the same window, the flush still issues an
edition-domain batched lookup for the edition — contrary to the claim's
"resolves without a second network call for the edition", two calls go out:
the work lookup and the edition lookup. -/
theorem c8_synthesis_cex :
    (run netOkW1 initSys [Action.push "/works/OL1W" 1, Action.push "/books/OL2M" 2,
        Action.flushStart, Action.flushFinish]).calls =
      [FetchCall.mk Domain.work ["/works/OL1W"],
       FetchCall.mk Domain.edition ["OL2M"]] ∧
    ((run netOkW1 initSys [Action.push "/works/OL1W" 1, Action.push "/books/OL2M" 2,
        Action.flushStart, Action.flushFinish]).calls.filter
      (fun c => c.domain == Domain.edition)).length = 1 :=
  ⟨by decide, by decide⟩

/-- Claim C8 amended: for a work returned with an embedded first edition,
the flush synthesises and caches an entry under the edition's own key —
full title combined from the edition's title and subtitle, author names and
edition count inherited from the work — and an edition-keyed request in the
same window is resolved with exactly this synthesised entry (the edition
lookup here returns nothing); however the same-window edition key still
causes an edition-domain batched lookup to be issued, so only a
later-window request for the edition avoids a network call. -/
theorem c8_edition_synthesis (net : NetOracle) (w : Entity) (ed : EdStub)
    (rest : List EdStub) (cbW cbE : Nat)
    (hty : w.type = "work")
    (hed : w.editions = ed :: rest)
    (h1 : jsStartsWith w.key "/works/" = true)
    (h2 : jsStartsWith w.key "/books/" = false)
    (h3 : jsStartsWith w.key "/authors/" = false)
    (h4 : jsStartsWith ed.key "/works/" = false)
    (h5 : jsStartsWith ed.key "/books/" = true)
    (h6 : jsStartsWith ed.key "/authors/" = false)
    (hnw : net Domain.work [w.key] = Except.ok [w])
    (hne : net Domain.edition [lastSeg ed.key] = Except.ok []) :
    (run net initSys [Action.push w.key cbW, Action.push ed.key cbE,
        Action.flushStart, Action.flushFinish]).calls =
      [FetchCall.mk Domain.work [w.key], FetchCall.mk Domain.edition [lastSeg ed.key]] ∧
    cacheGet (run net initSys [Action.push w.key cbW, Action.push ed.key cbE,
        Action.flushStart, Action.flushFinish]).st.cache ed.key =
      some (synthEdition (applyFullTitle w) ed) ∧
    (run net initSys [Action.push w.key cbW, Action.push ed.key cbE,
        Action.flushStart, Action.flushFinish]).events =
      [Event.mk cbW (some (applyFullTitle w)),
       Event.mk cbE (some (synthEdition (applyFullTitle w) ed))] ∧
    (synthEdition (applyFullTitle w) ed).full_title =
      some (fullTitle ed.title ed.subtitle) ∧
    (synthEdition (applyFullTitle w) ed).author_name = w.author_name ∧
    (synthEdition (applyFullTitle w) ed).edition_count = w.edition_count := by
  have hkne : (ed.key == w.key) = false := by
    refine beq_eq_false_iff_ne.mpr (fun he => ?_)
    rw [he, h2] at h5
    exact Bool.noConfusion h5
  simp only [run, List.foldl_cons, List.foldl_nil]
  have e1 : step net initSys (Action.push w.key cbW) =
      { st := { queue := [PendingReq.mk w.key cbW], cache := [] },
        inflight := none, events := [], calls := [], failures := 0 } := by
    simp [step, push, cacheGet, initSys]
  rw [e1]
  have e2 : step net
      ({ st := { queue := [PendingReq.mk w.key cbW], cache := [] },
         inflight := none, events := [], calls := [], failures := 0 } : Sys)
      (Action.push ed.key cbE) =
      { st := { queue := [PendingReq.mk w.key cbW, PendingReq.mk ed.key cbE],
                cache := [] },
        inflight := none, events := [], calls := [], failures := 0 } := by
    simp [step, push, cacheGet]
  rw [e2]
  have e3 : step net
      ({ st := { queue := [PendingReq.mk w.key cbW, PendingReq.mk ed.key cbE],
                 cache := [] },
         inflight := none, events := [], calls := [], failures := 0 } : Sys)
      Action.flushStart =
      { st := { queue := [PendingReq.mk w.key cbW, PendingReq.mk ed.key cbE],
                cache := [] },
        inflight := some [w.key, ed.key], events := [], calls := [],
        failures := 0 } := by
    simp [step]
  rw [e3]
  have hg : getThings net [w.key, ed.key] =
      ([FetchCall.mk Domain.work [w.key], FetchCall.mk Domain.edition [lastSeg ed.key]],
       Except.ok [w]) := by
    simp [getThings, fetchStage, postProcess, List.filter_cons, List.filter_nil,
      h1, h2, h3, h4, h5, h6, hnw, hne]
  simp only [step, hg]
  simp [processThing, hty, hed, cacheSet, cacheGet, applyFullTitle, hkne,
    synthEdition]
/-- Witness for C8 amended at `w1` / `ed1` under `netOkW1`. -/
theorem c8_edition_synthesis_witness :
    w1.type = "work" ∧ w1.editions = ed1 :: [] ∧
    ((run netOkW1 initSys [Action.push w1.key 1, Action.push ed1.key 2,
        Action.flushStart, Action.flushFinish]).calls =
      [FetchCall.mk Domain.work [w1.key], FetchCall.mk Domain.edition [lastSeg ed1.key]] ∧
    cacheGet (run netOkW1 initSys [Action.push w1.key 1, Action.push ed1.key 2,
        Action.flushStart, Action.flushFinish]).st.cache ed1.key =
      some (synthEdition (applyFullTitle w1) ed1) ∧
    (run netOkW1 initSys [Action.push w1.key 1, Action.push ed1.key 2,
        Action.flushStart, Action.flushFinish]).events =
      [Event.mk 1 (some (applyFullTitle w1)),
       Event.mk 2 (some (synthEdition (applyFullTitle w1) ed1))] ∧
    (synthEdition (applyFullTitle w1) ed1).full_title =
      some (fullTitle ed1.title ed1.subtitle) ∧
    (synthEdition (applyFullTitle w1) ed1).author_name = w1.author_name ∧
    (synthEdition (applyFullTitle w1) ed1).edition_count = w1.edition_count) :=
  ⟨by decide, by decide,
   c8_edition_synthesis netOkW1 w1 ed1 [] 1 2 (by decide) (by decide)
     (by decide) (by decide) (by decide) (by decide) (by decide) (by decide)
     (by rfl) (by rfl)⟩

/-- Claim C10: the author search returns docs whose `key` lacks the
`/authors/` part (here `doc.key = bare`); `getThings` restores the full key
before concatenating, so the flush caches the entity under the exact
requested key `"/authors/" ++ bare` and the dispatch phase finds it there,
invoking the caller's callback with the restored entity. -/
theorem c10_author_key_restored (net : NetOracle) (bare : String) (doc : Entity)
    (cb : Nat)
    (hkey : doc.key = bare)
    (hty : ¬ doc.type = "work")
    (h1 : jsStartsWith ("/authors/" ++ bare) "/works/" = false)
    (h2 : jsStartsWith ("/authors/" ++ bare) "/books/" = false)
    (h3 : jsStartsWith ("/authors/" ++ bare) "/authors/" = true)
    (hnet : net Domain.author ["/authors/" ++ bare] = Except.ok [doc]) :
    cacheGet (run net initSys [Action.push ("/authors/" ++ bare) cb,
        Action.flushStart, Action.flushFinish]).st.cache ("/authors/" ++ bare) =
      some { doc with key := "/authors/" ++ bare } ∧
    (run net initSys [Action.push ("/authors/" ++ bare) cb,
        Action.flushStart, Action.flushFinish]).events =
      [Event.mk cb (some { doc with key := "/authors/" ++ bare })] ∧
    (run net initSys [Action.push ("/authors/" ++ bare) cb,
        Action.flushStart, Action.flushFinish]).calls =
      [FetchCall.mk Domain.author ["/authors/" ++ bare]] := by
  simp only [run, List.foldl_cons, List.foldl_nil]
  have e1 : step net initSys (Action.push ("/authors/" ++ bare) cb) =
      { st := { queue := [PendingReq.mk ("/authors/" ++ bare) cb], cache := [] },
        inflight := none, events := [], calls := [], failures := 0 } := by
    simp [step, push, cacheGet, initSys]
  rw [e1]
  have e2 : step net
      ({ st := { queue := [PendingReq.mk ("/authors/" ++ bare) cb], cache := [] },
         inflight := none, events := [], calls := [], failures := 0 } : Sys)
      Action.flushStart =
      { st := { queue := [PendingReq.mk ("/authors/" ++ bare) cb], cache := [] },
        inflight := some ["/authors/" ++ bare], events := [], calls := [],
        failures := 0 } := by
    simp [step]
  rw [e2]
  have hg : getThings net ["/authors/" ++ bare] =
      ([FetchCall.mk Domain.author ["/authors/" ++ bare]],
       Except.ok [{ doc with key := "/authors/" ++ bare }]) := by
    simp [getThings, fetchStage, postProcess, List.filter_cons, List.filter_nil,
      h1, h2, h3, hnet, hkey]
  simp only [step, hg]
  simp [processThing, hty, cacheSet, cacheGet]

/-- Witness for C10 at the concrete author doc `a0` under `netAuth`. -/
theorem c10_author_key_restored_witness :
    a0.key = "OL23A" ∧
    (cacheGet (run netAuth initSys [Action.push ("/authors/" ++ "OL23A") 4,
        Action.flushStart, Action.flushFinish]).st.cache ("/authors/" ++ "OL23A") =
      some { a0 with key := "/authors/" ++ "OL23A" } ∧
    (run netAuth initSys [Action.push ("/authors/" ++ "OL23A") 4,
        Action.flushStart, Action.flushFinish]).events =
      [Event.mk 4 (some { a0 with key := "/authors/" ++ "OL23A" })] ∧
    (run netAuth initSys [Action.push ("/authors/" ++ "OL23A") 4,
        Action.flushStart, Action.flushFinish]).calls =
      [FetchCall.mk Domain.author ["/authors/" ++ "OL23A"]]) :=
  ⟨by decide,
   c10_author_key_restored netAuth "OL23A" a0 4 (by decide) (by decide)
     (by decide) (by decide) (by decide) (by rfl)⟩

end LTP
